import Mathlib

/-!
Shallow embedding of the hybrid skincare recommendation pipeline
(src/services/product-filter.service.js, src/services/ai-analysis.service.js,
src/controllers/analysis.controller.js).

External I/O (the Supabase catalog query, the generative-model call, the
persistence writes) is modelled by passing the observed result of each call
as an explicit parameter or oracle value; everything downstream of those
calls is transliterated from the JavaScript source.
-/

namespace Pipeline

/-! ### JavaScript value model

Catalog fields such as ingredients_extracted and benefits_extracted are
arbitrarily shaped JSON values.  An absent property and the JSON null are
conflated into JSVal.null: the source only ever distinguishes them through
truthiness and property access, and both are falsy with no properties. -/

inductive JSVal where
  | null
  | str (s : String)
  | num (n : Int)
  | arr (elems : List JSVal)
  | obj (fields : List (String × JSVal))

/-- Truthiness test for the JS values we model (null/undefined, "", 0 are falsy). -/
def jsIsFalsy : JSVal → Bool
  | .null => true
  | .str s => s == ""
  | .num n => n == 0
  | _ => false

/-- Property access on an object literal; absent keys give undefined (JSVal.null). -/
def jsGetField (fields : List (String × JSVal)) (key : String) : JSVal :=
  match fields.find? (fun kv => kv.1 == key) with
  | some kv => kv.2
  | none => .null

/-- The JS expression a || b. -/
def jsOr (a b : JSVal) : JSVal := if jsIsFalsy a then b else a

/-- The .length property: defined for strings and arrays, undefined otherwise. -/
def jsLength : JSVal → Option Int
  | .str s => some s.length
  | .arr xs => some xs.length
  | _ => none

/-- Lower-casing as String.prototype.toLowerCase on the character list. -/
def strLower (s : String) : String := ⟨s.data.map Char.toLower⟩

/-- String.prototype.includes: substring containment. -/
def strIncludes (s sub : String) : Bool := decide (sub.data <:+: s.data)

/-- Calling .toLowerCase() on a JS value: works on strings, throws otherwise. -/
def jsToLowerCase : JSVal → Except String String
  | .str s => .ok (strLower s)
  | _ => .error "TypeError: toLowerCase is not a function"

mutual

/-- JSON.stringify restricted to the values of JSVal (quotes and backslashes
escaped; other control-character escapes are not modelled since no claim
depends on them). -/
def jsStringify : JSVal → String
  | .null => "null"
  | .str s => "\"" ++ jsEscape s.data ++ "\""
  | .num n => toString n
  | .arr xs => "[" ++ jsStringifyList xs ++ "]"
  | .obj fs => "\x7b" ++ jsStringifyFields fs ++ "\x7d"

def jsStringifyList : List JSVal → String
  | [] => ""
  | [x] => jsStringify x
  | x :: y :: xs => jsStringify x ++ "," ++ jsStringifyList (y :: xs)

def jsStringifyFields : List (String × JSVal) → String
  | [] => ""
  | [kv] => "\"" ++ jsEscape kv.1.data ++ "\":" ++ jsStringify kv.2
  | kv :: kv2 :: kvs =>
      "\"" ++ jsEscape kv.1.data ++ "\":" ++ jsStringify kv.2 ++ "," ++ jsStringifyFields (kv2 :: kvs)

def jsEscape : List Char → String
  | [] => ""
  | c :: cs =>
      (if c = '"' then "\\\"" else if c = '\\' then "\\\\" else String.singleton c) ++ jsEscape cs

end

/-! ### product-filter.service.js : extractIngredientNames / extractBenefitNames -/

/-- Name chosen for one element of an ingredients array:
i.name || i.ingredient || i.original_name || '' for objects, the string
itself for strings, '' for anything else (including arrays, which have none
of those properties, and null/numbers, which fail the typeof tests). -/
def ingItemName : JSVal → JSVal
  | .obj fields =>
      jsOr (jsGetField fields "name")
        (jsOr (jsGetField fields "ingredient")
          (jsOr (jsGetField fields "original_name") (.str "")))
  | .str s => .str s
  | _ => .str ""

/-- The filter step .filter(name => name.length > 0) on possibly non-string
chosen values: values without a .length (numbers, objects, null) are dropped. -/
def jsLengthPos (v : JSVal) : Bool :=
  match jsLength v with
  | some n => 0 < n
  | none => false

/-- Transliteration of extractIngredientNames
(src/services/product-filter.service.js:246-272).  The Except layer records
where the JS would throw a TypeError (calling .toLowerCase on a non-string,
or .map on a truthy non-array ingredients_list). -/
def extractIngredientNames (ingredients : JSVal) : Except String (List String) :=
  if jsIsFalsy ingredients then .ok []
  else match ingredients with
  | .arr items => (items.map ingItemName).filter jsLengthPos |>.mapM jsToLowerCase
  | .obj fields =>
      let lv := jsGetField fields "ingredients_list"
      if jsIsFalsy lv then .ok []
      else match lv with
      | .arr xs => do
          let lowered ← xs.mapM fun i => jsToLowerCase (jsOr i (.str ""))
          return lowered.filter fun name => name.length > 0
      | _ => .error "TypeError: ingredients_list.map is not a function"
  | .str s => .ok [strLower s]
  | _ => .ok []

/-- Name chosen for one element of a benefits array: b.benefit || b.name || ''. -/
def benItemName : JSVal → JSVal
  | .obj fields => jsOr (jsGetField fields "benefit") (jsOr (jsGetField fields "name") (.str ""))
  | .str s => .str s
  | _ => .str ""

/-- Transliteration of extractBenefitNames
(src/services/product-filter.service.js:274-294). -/
def extractBenefitNames (benefits : JSVal) : Except String (List String) :=
  if jsIsFalsy benefits then .ok []
  else match benefits with
  | .arr items => (items.map benItemName).filter jsLengthPos |>.mapM jsToLowerCase
  | .str s => .ok [strLower s]
  | _ => .ok []

/-! ### Data model -/

/-- One catalog product as retrieved by the filter query.  product_name and
price_mrp are non-null (the query filters on that); category_path, brand_name
and rating_avg may be null. -/
structure Product where
  product_id : String
  product_name : String
  brand_name : Option String
  category_path : Option String
  price_mrp : ℚ
  rating_avg : Option ℚ
  ingredients_extracted : JSVal
  benefits_extracted : JSVal

/-- One scored product: the spread { ...product, score, matchReasons }. -/
structure ScoredProduct where
  prod : Product
  score : Int
  matchReasons : List String

/-- Filter criteria as built by extractFilterCriteria.  The source maps
mustHave entries through (i => typeof i === 'string' ? i : i.ingredient)
and scoreProduct re-stringifies defensively; the entries are modelled as the
resulting strings. -/
structure Criteria where
  mustHaveIngredients : List String
  beneficialIngredients : List String
  avoidIngredients : List String
  skinConcerns : List String
  productTypes : List String
  skinType : Option String
  skinSensitivity : Option String
  allergies : List String
  budgetRange : ℚ × ℚ
  primaryConcerns : List String
  secondaryConcerns : List String

/-- Upstream analysis ingredient recommendations; absent mustHave/beneficial/
avoid arrays are modelled as the empty lists the ?.map(...) || [] chains
produce. -/
structure IngredientRecs where
  mustHave : List String
  beneficial : List String
  avoid : List String

/-- Routine structure of the analysis, pre-projected to the productType of
each step (morning.steps[].productType and evening.steps[].productType). -/
structure RoutineShape where
  morningTypes : List String
  eveningTypes : List String

/-- The upstream comprehensive-analysis object, restricted to the fields
extractFilterCriteria reads.  treatmentPriorities is
treatmentPlan.priorities.map(p => p.concern). -/
structure Analysis where
  ingredientRecommendations : Option IngredientRecs
  routineStructure : Option RoutineShape
  treatmentPriorities : Option (List String)

/-- The user's beauty profile, restricted to the fields the pipeline reads. -/
structure UserProfile where
  skin_type : Option String
  skin_sensitivity_level : Option String
  known_allergies : Option (List String)
  budget_range : Option String
  primary_skin_concerns : Option (List String)
  secondary_skin_concerns : Option (List String)

/-! ### product-filter.service.js : extractFilterCriteria -/

/-- Budget lookup table (src/services/product-filter.service.js:296-304);
unknown or absent tiers resolve to [0, 500]. -/
def getBudgetRange (budgetPreference : Option String) : ℚ × ℚ :=
  match budgetPreference with
  | some "budget" => (0, 50)
  | some "mid_range" => (20, 100)
  | some "luxury" => (50, 500)
  | some "mixed" => (0, 500)
  | _ => (0, 500)

/-- Skin-type keyword table (src/services/product-filter.service.js:306-314). -/
def getSkinTypeKeywords (skinType : String) : List String :=
  if skinType == "Dry & Tight" then ["dry", "hydrating", "moisturizing", "nourishing", "hydration"]
  else if skinType == "Oily & Shiny" then ["oily", "oil-control", "mattifying", "sebum", "shine-control", "oil-free"]
  else if skinType == "Combination" then ["combination", "balanced", "normalize", "T-zone"]
  else if skinType == "Normal & Balanced" then ["normal", "balanced", "maintain", "all skin types"]
  else ["all skin types"]

/-- The JS expression [...new Set(l)]: dedup by exact string equality,
keeping the first occurrence of each element. -/
def jsSetDedup (l : List String) : List String :=
  l.foldl (fun acc x => if acc.contains x then acc else acc ++ [x]) []

/-- Transliteration of extractFilterCriteria
(src/services/product-filter.service.js:96-141). -/
def extractFilterCriteria (aiAnalysis : Analysis) (userProfile : UserProfile) : Criteria :=
  let base : Criteria :=
    { mustHaveIngredients := []
      beneficialIngredients := []
      avoidIngredients := []
      skinConcerns := []
      productTypes := []
      skinType := userProfile.skin_type
      skinSensitivity := userProfile.skin_sensitivity_level
      allergies := userProfile.known_allergies.getD []
      budgetRange := getBudgetRange userProfile.budget_range
      primaryConcerns := userProfile.primary_skin_concerns.getD []
      secondaryConcerns := userProfile.secondary_skin_concerns.getD [] }
  let c1 :=
    match aiAnalysis.ingredientRecommendations with
    | some recs =>
        { base with
          mustHaveIngredients := recs.mustHave
          beneficialIngredients := recs.beneficial
          avoidIngredients := recs.avoid }
    | none => base
  let c2 :=
    match aiAnalysis.routineStructure with
    | some rs => { c1 with productTypes := jsSetDedup (rs.morningTypes ++ rs.eveningTypes) }
    | none => c1
  let c3 :=
    match aiAnalysis.treatmentPriorities with
    | some ps => { c2 with skinConcerns := ps }
    | none => c2
  { c3 with avoidIngredients := jsSetDedup (c3.avoidIngredients ++ c3.allergies) }

/-! ### product-filter.service.js : scoreProduct -/

/-- Avoid-ingredient test: productIngredients.some(ing => ing.includes(avoid.toLowerCase())). -/
def avoidMatch (ings : List String) (a : String) : Bool :=
  ings.any fun ing => strIncludes ing (strLower a)

/-- Must-have / beneficial ingredient test, including the truthiness guard
that skips the empty string:
s && (ings.some(ing => ing.includes(s.toLowerCase())) || name.includes(s.toLowerCase())). -/
def ingNameMatch (ings : List String) (nameL : String) (s : String) : Bool :=
  !(s == "") && (ings.any (fun ing => strIncludes ing (strLower s)) || strIncludes nameL (strLower s))

/-- Concern test (the concern string is NOT lower-cased by the source):
benefits.some(b => b.includes(concern)) || name.includes(concern) || category.includes(concern). -/
def concernMatch (bens : List String) (nameL catL : String) (concern : String) : Bool :=
  bens.any (fun b => strIncludes b concern) || strIncludes nameL concern || strIncludes catL concern

/-- Skin-type keyword hit: some keyword of the table appears in the name or a
benefit (keywords are used verbatim, not lower-cased). -/
def skinKeywordHit (bens : List String) (nameL : String) (skinType : String) : Bool :=
  (getSkinTypeKeywords skinType).any fun k =>
    strIncludes nameL k || bens.any fun b => strIncludes b k

/-- Outcome of the avoid-ingredient loop: disqualified at the first match in
strict mode, or a continuation with the accumulated penalty and reasons. -/
inductive AvoidOutcome where
  | disq (ing : String)
  | cont (score : Int) (reasons : List String)

/-- The for-loop over criteria.avoidIngredients
(src/services/product-filter.service.js:156-166): in strict mode the first
substring match returns immediately, otherwise each match costs 50 points. -/
def avoidPhase (ings : List String) (strict : Bool) : List String → AvoidOutcome
  | [] => .cont 0 []
  | a :: rest =>
      if avoidMatch ings a then
        if strict then .disq a
        else
          match avoidPhase ings strict rest with
          | .disq x => .disq x
          | .cont s rs => .cont (s - 50) (("Contains " ++ a ++ " (should avoid)") :: rs)
      else avoidPhase ings strict rest

/-- One of the per-list scoring loops: for each element passing the test add
k points and append its reason. -/
def tallyPhase {α : Type} (p : α → Bool) (k : Int) (reason : α → String) (l : List α)
    (acc : Int × List String) : Int × List String :=
  l.foldl (fun acc x => if p x then (acc.1 + k, acc.2 ++ [reason x]) else acc) acc

/-- The skin-type step: +20 when some keyword of the user's skin type hits
the name or a benefit (first hit only, via the break in the source). -/
def skinPhase (productBenefits : List String) (productName : String) (skinType : Option String)
    (acc : Int × List String) : Int × List String :=
  match skinType with
  | some st =>
      if skinKeywordHit productBenefits productName st then
        (acc.1 + 20, acc.2 ++ ["Suitable for " ++ st ++ " skin"])
      else acc
  | none => acc

/-- The budget step: +10 when the price is positive and inside the range. -/
def budgetPhase (price : ℚ) (range : ℚ × ℚ) (acc : Int × List String) : Int × List String :=
  if 0 < price ∧ range.1 ≤ price ∧ price ≤ range.2 then
    (acc.1 + 10, acc.2 ++ ["Within budget"])
  else acc

/-- The base-floor step: when the score is still exactly 0 and at least one
ingredient was recognized, force the score to 5. -/
def floorPhase (productIngredients : List String) (acc : Int × List String) : Int × List String :=
  if acc.1 = 0 ∧ 0 < productIngredients.length then
    ((5 : Int), acc.2 ++ ["Valid skincare product"])
  else acc

/-- The rating step: +15 when a rating of at least 4 is present. -/
def ratingPhase (rating : Option ℚ) (acc : Int × List String) : Int × List String :=
  match rating with
  | some r => if 4 ≤ r then (acc.1 + 15, acc.2 ++ ["Highly rated (" ++ toString r ++ "★)"]) else acc
  | none => acc

/-- The factor chain of scoreProduct after the avoid loop, in source order:
must-have (+100), beneficial (+50), concerns (+30), skin type (+20), budget
(+10), base floor (score reset to 5 when still exactly 0 with a recognized
ingredient), and finally the rating bonus (+15). -/
def factorPhases (criteria : Criteria) (productIngredients productBenefits : List String)
    (productName productCategory : String) (price : ℚ) (rating : Option ℚ)
    (acc0 : Int × List String) : Int × List String :=
  ratingPhase rating
    (floorPhase productIngredients
      (budgetPhase price criteria.budgetRange
        (skinPhase productBenefits productName criteria.skinType
          (tallyPhase (fun q => concernMatch productBenefits productName productCategory q) 30
            (fun q => "Targets " ++ q) criteria.primaryConcerns
            (tallyPhase (fun b => ingNameMatch productIngredients productName b) 50
              (fun b => "Contains beneficial " ++ b) criteria.beneficialIngredients
              (tallyPhase (fun m => ingNameMatch productIngredients productName m) 100
                (fun m => "Contains required " ++ m) criteria.mustHaveIngredients acc0))))))

/-- Transliteration of the body of scoreProduct
(src/services/product-filter.service.js:144-238); the try/catch wrapper is
scoreProduct below.  The hasRequiredIngredient flag of the source is set but
never read, so it is omitted. -/
def scoreProductBody (product : Product) (criteria : Criteria) (strict : Bool) :
    Except String ScoredProduct :=
  (extractIngredientNames product.ingredients_extracted).bind fun productIngredients =>
  (extractBenefitNames product.benefits_extracted).bind fun productBenefits =>
  let productName := strLower product.product_name
  let productCategory := strLower (product.category_path.getD "")
  match avoidPhase productIngredients strict criteria.avoidIngredients with
  | .disq a =>
      .ok { prod := product, score := 0, matchReasons := ["Contains " ++ a ++ " (must avoid)"] }
  | .cont s0 rs0 =>
      let acc := factorPhases criteria productIngredients productBenefits productName
        productCategory product.price_mrp product.rating_avg (s0, rs0)
      .ok { prod := product, score := acc.1, matchReasons := acc.2 }

/-- scoreProduct with its catch-all: any TypeError while extracting the
polymorphic fields yields the fallback score 1. -/
def scoreProduct (product : Product) (criteria : Criteria) (strict : Bool) : ScoredProduct :=
  match scoreProductBody product criteria strict with
  | .ok r => r
  | .error _ => { prod := product, score := 1, matchReasons := ["Processing error - included as fallback"] }

/-! ### Closed-form score of scoreProduct, used by the scoring theorems -/

/-- Points contributed by the skin-type step. -/
def skinBonus (bens : List String) (nameL : String) : Option String → Int
  | some st => if skinKeywordHit bens nameL st then 20 else 0
  | none => 0

/-- Points contributed by the budget step. -/
def budgetBonus (price : ℚ) (range : ℚ × ℚ) : Int :=
  if 0 < price ∧ range.1 ≤ price ∧ price ≤ range.2 then 10 else 0

/-- Points contributed by the rating step. -/
def ratingBonus : Option ℚ → Int
  | some r => if 4 ≤ r then 15 else 0
  | none => 0

/-- The score accumulated by the first six factors (lenient avoid penalty,
must-have, beneficial, concerns, skin type, budget), before the base floor
and the rating bonus. -/
def preScore (c : Criteria) (ings bens : List String) (nameL catL : String) (price : ℚ) : Int :=
  -50 * (c.avoidIngredients.countP fun a => avoidMatch ings a)
    + 100 * (c.mustHaveIngredients.countP fun m => ingNameMatch ings nameL m)
    + 50 * (c.beneficialIngredients.countP fun b => ingNameMatch ings nameL b)
    + 30 * (c.primaryConcerns.countP fun q => concernMatch bens nameL catL q)
    + skinBonus bens nameL c.skinType
    + budgetBonus price c.budgetRange

/-- Closed form of the non-disqualified score: the base floor of 5 replaces a
zero six-factor score when an ingredient was recognized, and the rating bonus
is added afterwards. -/
def specScore (c : Criteria) (ings bens : List String) (nameL catL : String) (price : ℚ)
    (rating : Option ℚ) : Int :=
  (if preScore c ings bens nameL catL price = 0 ∧ 0 < ings.length then 5
   else preScore c ings bens nameL catL price) + ratingBonus rating

/-! ### JS object as insertion-ordered association list

A plain JS object used as a dictionary: assignment to a fresh key appends it,
assignment to an existing key updates it in place. -/

/-- Lookup of a key (obj[k], undefined when absent modelled as none). -/
def getKey {α : Type} : List (String × α) → String → Option α
  | [], _ => none
  | kv :: rest, k => if kv.1 = k then some kv.2 else getKey rest k

/-- Assignment obj[k] = v preserving JS key insertion order. -/
def setKey {α : Type} : List (String × α) → String → α → List (String × α)
  | [], k, v => [(k, v)]
  | kv :: rest, k, v => if kv.1 = k then (k, v) :: rest else kv :: setKey rest k v

/-! ### product-filter.service.js : groupProductsByCategory -/

/-- Transliteration of detectProductCategory
(src/services/product-filter.service.js:349-368). -/
def detectProductCategory (p : ScoredProduct) : String :=
  let name := strLower p.prod.product_name
  let category := strLower (p.prod.category_path.getD "")
  if strIncludes name "cleanser" || strIncludes category "cleanser" || strIncludes name "wash" then "cleanser"
  else if strIncludes name "serum" || strIncludes category "serum" then "serum"
  else if strIncludes name "moisturizer" || strIncludes name "cream" || strIncludes category "moisturizer" then "moisturizer"
  else if strIncludes name "sunscreen" || strIncludes name "spf" || strIncludes category "sunscreen" then "sunscreen"
  else if strIncludes name "toner" || strIncludes category "toner" then "toner"
  else if strIncludes name "exfoliant" || strIncludes name "scrub" || strIncludes name "peel" then "exfoliant"
  else if strIncludes name "mask" || strIncludes category "mask" then "mask"
  else if strIncludes name "oil" && !(strIncludes name "cleanser") then "oil"
  else if strIncludes name "eye" || strIncludes name "dark circle" then "eye_care"
  else if strIncludes name "lip" then "lip_care"
  else "treatment"

/-- The guard if (!categories[category]) categories[category] = []. -/
def ensureKey (cats : List (String × List ScoredProduct)) (category : String) :
    List (String × List ScoredProduct) :=
  match getKey cats category with
  | none => setKey cats category []
  | some _ => cats

/-- The push guarded by the cap:
if (categories[category].length < maxPerCategory) categories[category].push(product). -/
def pushCapped (maxPerCategory : Nat) (cats : List (String × List ScoredProduct))
    (category : String) (product : ScoredProduct) : List (String × List ScoredProduct) :=
  if ((getKey cats category).getD []).length < maxPerCategory then
    setKey cats category ((getKey cats category).getD [] ++ [product])
  else cats

/-- One iteration of the main grouping loop: create the category array if
absent, then push the product only while the array is below the cap. -/
def groupStep (maxPerCategory : Nat) (cats : List (String × List ScoredProduct))
    (product : ScoredProduct) : List (String × List ScoredProduct) :=
  pushCapped maxPerCategory (ensureKey cats (detectProductCategory product))
    (detectProductCategory product) product

/-- The relaxed backfill test for an empty essential category:
name.includes(cat) || (cat === 'moisturizer' && name.includes('cream')). -/
def backfillPred (cat : String) (p : ScoredProduct) : Bool :=
  let name := strLower p.prod.product_name
  strIncludes name cat || (cat == "moisturizer" && strIncludes name "cream")

/-- One backfill iteration: when the category is missing or empty, install
the first product of the FULL input list passing the relaxed test. -/
def backfillStep (products : List ScoredProduct) (cats : List (String × List ScoredProduct))
    (cat : String) : List (String × List ScoredProduct) :=
  match getKey cats cat with
  | some (_ :: _) => cats
  | _ =>
      match products.find? (backfillPred cat) with
      | some fallback => setKey cats cat [fallback]
      | none => cats

/-- The essential categories the grouper backfills. -/
def keyCategories : List String := ["cleanser", "serum", "moisturizer"]

/-- Transliteration of groupProductsByCategory
(src/services/product-filter.service.js:316-347). -/
def groupProductsByCategory (products : List ScoredProduct) (maxPerCategory : Nat) :
    List (String × List ScoredProduct) :=
  keyCategories.foldl (backfillStep products) (products.foldl (groupStep maxPerCategory) [])

/-! ### product-filter.service.js : filterProductsForUser -/

/-- Stable descending sort by score, matching the stable Array.prototype.sort
with comparator (a, b) => b.score - a.score. -/
def sortByScoreDesc (l : List ScoredProduct) : List ScoredProduct :=
  l.insertionSort fun a b => b.score ≤ a.score

/-- Result record of filterProductsForUser.  Of generateFilterSummary only the
averageScore field is modelled; topReasons/priceRange/topBrands are logging
data no caller reads. -/
structure FilterResult where
  filterCriteria : Criteria
  productsByCategory : List (String × List ScoredProduct)
  totalFiltered : Nat
  summaryAverageScore : ℚ

/-- Transliteration of filterProductsForUser
(src/services/product-filter.service.js:9-93), parameterised by the product
page the catalog query returned (allProducts); the budget-widened query
predicate itself is external I/O.  When no product scores above zero the
function returns every retrieved product re-scored to the uniform 10 with
reason 'Available product' instead of an empty result. -/
def filterProductsForUser (allProducts : List Product) (aiAnalysis : Analysis)
    (userProfile : UserProfile) (maxProductsPerCategory : Nat)
    (strictIngredientFiltering : Bool) : FilterResult :=
  let filterCriteria := extractFilterCriteria aiAnalysis userProfile
  let filteredProducts := sortByScoreDesc
    (((allProducts.map fun p => scoreProduct p filterCriteria strictIngredientFiltering)).filter
      fun sp => 0 < sp.score)
  if filteredProducts.length = 0 then
    { filterCriteria := filterCriteria
      productsByCategory := groupProductsByCategory
        (allProducts.map fun p => { prod := p, score := 10, matchReasons := ["Available product"] })
        maxProductsPerCategory
      totalFiltered := allProducts.length
      summaryAverageScore := 10 }
  else
    { filterCriteria := filterCriteria
      productsByCategory := groupProductsByCategory filteredProducts maxProductsPerCategory
      totalFiltered := filteredProducts.length
      summaryAverageScore :=
        (filteredProducts.foldl (fun s p => s + (p.score : ℚ)) 0) / filteredProducts.length }

/-! ### ai-analysis.service.js : data shapes for the selection step -/

/-- One entry of the availableProducts list built inside
selectFinalProductsWithAI (field names id/name/brand/type/price/ingredients). -/
structure AvailProduct where
  id : String
  name : String
  brand : Option String
  type : String
  price : ℚ
  ingredients : JSVal

/-- One element of the keyIngredients map of the ai-analysis service's local
extractIngredientNames: i.name || i.ingredient || '' — property access on a
null element THROWS a TypeError; on strings, numbers and arrays the
properties are undefined and the chain falls through to ''.  The chosen
value is kept as a JS value because a non-string name field (for example an
array) survives the length filter unconverted. -/
def aiIngItemName : JSVal → Except String JSVal
  | .null => .error "TypeError: Cannot read properties of null (reading name)"
  | .obj fields => .ok (jsOr (jsGetField fields "name") (jsOr (jsGetField fields "ingredient") (.str "")))
  | _ => .ok (.str "")

/-- Transliteration of the ai-analysis service's local extractIngredientNames
(src/services/ai-analysis.service.js:643-654): falsy input gives [], an
array is mapped through the name preference chain (which can throw on null
elements), filtered to values with positive length, and cut to the first 5;
any other shape gives []. -/
def aiExtractIngredientNames (ingredients : JSVal) : Except String (List JSVal) :=
  if jsIsFalsy ingredients then .ok []
  else match ingredients with
  | .arr items =>
      (items.mapM aiIngItemName).bind fun named =>
        .ok ((named.filter jsLengthPos).take 5)
  | _ => .ok []

/-- One routine item of a Recommendation.  The constant rationale/usage text
fields (whyRecommended, howToUse, expectedResults, timeToSeeResults) are
elided: no observable behaviour in scope depends on them.  keyIngredients is
kept because the fallback composer COMPUTES it with the ai service's local
extractIngredientNames, which can throw.  productId is Option String because
the JS builds it by property access that can yield undefined. -/
structure RoutineItem where
  productId : Option String
  productName : Option String
  brandName : Option String
  productType : String
  price : ℚ
  applicationOrder : Int
  keyIngredients : List JSVal

/-- A recommendation object: the two routines, possibly absent when the raw
model output lacks them (overallPhilosophy/expectedTimeline/proTips elided). -/
structure Recs where
  morningRoutine : Option (List RoutineItem)
  eveningRoutine : Option (List RoutineItem)

/-- All routine items of a recommendation, morning then evening. -/
def recItems (r : Recs) : List RoutineItem :=
  r.morningRoutine.getD [] ++ r.eveningRoutine.getD []

/-- The record shape createFallbackRecommendations reads from its input
elements: every field is optional because on one call path the function is
fed availableProducts entries, whose field names (id/name/...) differ from
the catalog names (product_id/product_name/...) it accesses, so every access
yields undefined there. -/
structure FbProduct where
  product_id : Option String
  product_name : Option String
  brand_name : Option String
  category_path : Option String
  price_mrp : Option ℚ
  ingredients_extracted : Option JSVal

/-- View of a real catalog product through the fields
createFallbackRecommendations reads. -/
def catalogToFb (p : Product) : FbProduct :=
  { product_id := some p.product_id
    product_name := some p.product_name
    brand_name := p.brand_name
    category_path := p.category_path
    price_mrp := some p.price_mrp
    ingredients_extracted := some p.ingredients_extracted }

/-- View of an availableProducts entry through the fields
createFallbackRecommendations reads: the entry stores its data under
id/name/brand/type/price/ingredients, so product_id, product_name,
brand_name, category_path, price_mrp and ingredients_extracted are all
undefined. -/
def availToFb (_ : AvailProduct) : FbProduct :=
  { product_id := none, product_name := none, brand_name := none
    category_path := none, price_mrp := none, ingredients_extracted := none }

/-! ### ai-analysis.service.js : createFallbackRecommendations -/

/-- Optional-chaining substring test p.field?.toLowerCase().includes(sub):
false when the field is undefined. -/
def optIncl (o : Option String) (sub : String) : Bool :=
  match o with
  | some s => strIncludes (strLower s) sub
  | none => false

/-- The niacinamide priority test of the serum sort:
JSON.stringify(p.ingredients_extracted || '').toLowerCase().includes('niacinamide'). -/
def fbHasNiacinamide (p : FbProduct) : Bool :=
  let v := match p.ingredients_extracted with
    | none => JSVal.str ""
    | some w => if jsIsFalsy w then JSVal.str "" else w
  strIncludes (strLower (jsStringify v)) "niacinamide"

/-- A routine item as built by createFallbackRecommendations: identity fields
copied from the product, price via Number(price_mrp) || 0, keyIngredients as
extracted by the (throwing) local extractor. -/
def mkFbItem (p : FbProduct) (ptype : String) (order : Int) (keyIngredients : List JSVal) :
    RoutineItem :=
  { productId := p.product_id
    productName := p.product_name
    brandName := p.brand_name
    productType := ptype
    price := p.price_mrp.getD 0
    applicationOrder := order
    keyIngredients := keyIngredients }

/-- Cleanser sub-list of createFallbackRecommendations
(src/services/ai-analysis.service.js:520-523). -/
def fbCleansers (products : List FbProduct) : List FbProduct :=
  products.filter fun p => optIncl p.product_name "cleanser" || optIncl p.category_path "cleanser"

/-- Serum sub-list, stable sorted so products mentioning niacinamide come
first (comparator bHas - aHas at src/services/ai-analysis.service.js:526-534). -/
def fbSerums (products : List FbProduct) : List FbProduct :=
  (products.filter fun p =>
      optIncl p.product_name "serum" || optIncl p.category_path "serum").insertionSort
    fun a b => (if fbHasNiacinamide b then (1 : Nat) else 0) ≤ (if fbHasNiacinamide a then 1 else 0)

/-- Moisturizer sub-list (src/services/ai-analysis.service.js:537-541). -/
def fbMoisturizers (products : List FbProduct) : List FbProduct :=
  products.filter fun p =>
    optIncl p.product_name "moisturizer" || optIncl p.product_name "cream" ||
      optIncl p.category_path "moisturizer"

/-- One conditional push: when the product is present its keyIngredients are
extracted (which can throw on a null ingredient element) and the singleton
routine item emitted; when it is absent nothing is pushed (the
if (xs.length > 0) guards). -/
def optItemM (o : Option FbProduct) (ptype : String) (order : Int) :
    Except String (List RoutineItem) :=
  match o with
  | some c =>
      (aiExtractIngredientNames (c.ingredients_extracted.getD .null)).bind fun ki =>
        .ok [mkFbItem c ptype order ki]
  | none => .ok []

/-- Morning routine of the fallback: top cleanser, top serum, top
moisturizer, orders 1-3, each push extracting keyIngredients in source order
(src/services/ai-analysis.service.js:544-590). -/
def fbMorning (products : List FbProduct) : Except String (List RoutineItem) :=
  (optItemM (fbCleansers products).head? "cleanser" 1).bind fun m1 =>
  (optItemM (fbSerums products).head? "serum" 2).bind fun m2 =>
  (optItemM (fbMoisturizers products).head? "moisturizer" 3).bind fun m3 =>
  .ok (m1 ++ m2 ++ m3)

/-- The evening pick xs.length > 1 ? xs[1] : xs[0]. -/
def secondChoice (l : List FbProduct) : Option FbProduct :=
  if 1 < l.length then l.get? 1 else l.get? 0

/-- Evening routine of the fallback: second-best (else repeated) cleanser and
serum, the serum emitted with productType 'treatment'; the eveningMoisturizer
the source computes is never used (src/services/ai-analysis.service.js:592-627). -/
def fbEvening (products : List FbProduct) : Except String (List RoutineItem) :=
  (optItemM (secondChoice (fbCleansers products)) "cleanser" 1).bind fun e1 =>
  (optItemM (secondChoice (fbSerums products)) "treatment" 2).bind fun e2 =>
  .ok (e1 ++ e2)

/-- Transliteration of createFallbackRecommendations
(src/services/ai-analysis.service.js:513-640), split into the named pieces
above.  The Except layer records the TypeError the keyIngredients extraction
raises on a product whose ingredients_extracted array contains null. -/
def createFallbackRecommendations (products : List FbProduct) : Except String Recs :=
  (fbMorning products).bind fun morningProducts =>
  (fbEvening products).bind fun eveningProducts =>
  .ok { morningRoutine := some morningProducts, eveningRoutine := some eveningProducts }

/-! ### ai-analysis.service.js : parseTextResponse -/

/-- Transliteration of parseTextResponse
(src/services/ai-analysis.service.js:657-693): scan availableProducts, and
for each product mentioned in the text push an item whose applicationOrder is
morningRoutine.length + 1, into the morning routine when the text mentions
'morning' and the morning routine has room, else into the evening routine
while it has room. -/
def parseTextResponse (text : String) (availableProducts : List AvailProduct) : Recs :=
  let stateF := availableProducts.foldl
    (fun (state : List RoutineItem × List RoutineItem) p =>
      let (m, e) := state
      if strIncludes text p.name || strIncludes text p.id then
        let routineProduct : RoutineItem :=
          { productId := some p.id
            productName := some p.name
            brandName := p.brand
            productType := p.type
            price := p.price
            applicationOrder := (m.length : Int) + 1
            keyIngredients := [] }
        if strIncludes (strLower text) "morning" && m.length < 4 then (m ++ [routineProduct], e)
        else if e.length < 4 then (m, e ++ [routineProduct])
        else (m, e)
      else (m, e))
    ([], [])
  { morningRoutine := some stateF.1, eveningRoutine := some stateF.2 }

/-! ### ai-analysis.service.js : selectFinalProductsWithAI -/

/-- Oracle for the untrusted generative call inside selectFinalProductsWithAI:
the call (or reading its response) threw; the response contained a JSON
object that parsed to some recommendations value; the response contained no
JSON object (free-text parsing); or JSON.parse threw on the extracted match. -/
inductive ModelOutcome where
  | callFailed
  | jsonParsed (recs : Recs)
  | noJsonMatch (text : String)
  | parseFailed

/-- The availableProducts list built from productsByType
(src/services/ai-analysis.service.js:411-424), in Object.entries order. -/
def availableProducts (productsByType : List (String × List Product)) : List AvailProduct :=
  productsByType.flatMap fun tp => tp.2.map fun p =>
    { id := p.product_id
      name := p.product_name
      brand := p.brand_name
      type := tp.1
      price := p.price_mrp
      ingredients := p.ingredients_extracted }

/-- Identifier allow-list validation of one routine: keep only items whose
productId is in validProductIds (an undefined productId is never in the set);
an absent routine stays absent. -/
def validateRoutine (validProductIds : List String) :
    Option (List RoutineItem) → Option (List RoutineItem)
  | none => none
  | some items => some (items.filter fun it =>
      match it.productId with
      | some pid => validProductIds.contains pid
      | none => false)

/-- Identifier allow-list validation of both routines of a recommendation. -/
def validateRecs (validProductIds : List String) (recommendations : Recs) : Recs :=
  { morningRoutine := validateRoutine validProductIds recommendations.morningRoutine
    eveningRoutine := validateRoutine validProductIds recommendations.eveningRoutine }

/-- Transliteration of selectFinalProductsWithAI
(src/services/ai-analysis.service.js:409-510) over the ModelOutcome oracle.
On callFailed the outer catch returns createFallbackRecommendations over the
flattened candidate products, bypassing validation — and an error IT throws
(the keyIngredients TypeError) escapes the function.  On parseFailed the
inner catch feeds availableProducts (whose field names do not match what
createFallbackRecommendations reads) to the fallback; were that call itself
to throw, control would reach the outer catch and its candidate fallback.
The remaining outcomes are validated against the real candidate ids. -/
def selectFinalProductsWithAI (productsByType : List (String × List Product))
    (outcome : ModelOutcome) : Except String Recs :=
  let avail := availableProducts productsByType
  let validProductIds := avail.map (·.id)
  match outcome with
  | .callFailed =>
      createFallbackRecommendations ((productsByType.flatMap Prod.snd).map catalogToFb)
  | .jsonParsed r => .ok (validateRecs validProductIds r)
  | .noJsonMatch text => .ok (validateRecs validProductIds (parseTextResponse text avail))
  | .parseFailed =>
      match createFallbackRecommendations (avail.map availToFb) with
      | .ok recommendations => .ok (validateRecs validProductIds recommendations)
      | .error _ =>
          createFallbackRecommendations ((productsByType.flatMap Prod.snd).map catalogToFb)

/-! ### ai-analysis.service.js : matchProductsWithAI -/

/-- The category-to-routine-type table of mapCategoryToProductType
(src/services/ai-analysis.service.js:393-406). -/
def categoryTypeMap : List (String × String) :=
  [("cleanser", "cleanser"), ("serum", "serum"), ("moisturizer", "moisturizer"),
   ("sunscreen", "sunscreen"), ("toner", "toner"), ("exfoliant", "treatment"),
   ("mask", "treatment"), ("oil", "treatment"), ("other", "treatment")]

def mapCategoryToProductType (category : String) : String :=
  (getKey categoryTypeMap category).getD "treatment"

/-- Step 2 of matchProductsWithAI: re-key each grouped category by its mapped
routine type.  Plain JS assignment, so a later category mapped to the same
type OVERWRITES the earlier one.  The matchScore/matchReasons decoration the
source adds is dropped because no downstream read observes it. -/
def convertToProductsByType (productsByCategory : List (String × List ScoredProduct)) :
    List (String × List Product) :=
  productsByCategory.foldl
    (fun acc cat => setKey acc (mapCategoryToProductType cat.1) (cat.2.map (·.prod)))
    []

/-- An upstream analysis carrying no ingredient recommendations. -/
def emptyAnalysis : Analysis :=
  { ingredientRecommendations := none, routineStructure := none, treatmentPriorities := none }

/-- An analysis whose avoid list holds the capitalised string Fragrance. -/
def analysisAvoidFragranceCap : Analysis :=
  { ingredientRecommendations := some { mustHave := [], beneficial := [], avoid := ["Fragrance"] }
    routineStructure := none
    treatmentPriorities := none }

/-- A profile allergic to the lower-cased fragrance, with no other data. -/
def profileAllergicFragrance : UserProfile :=
  { skin_type := none, skin_sensitivity_level := none, known_allergies := some ["fragrance"]
    budget_range := none, primary_skin_concerns := none, secondary_skin_concerns := none }

/-- Empty criteria over the widest budget range. -/
def emptyCriteria : Criteria :=
  { mustHaveIngredients := [], beneficialIngredients := [], avoidIngredients := []
    skinConcerns := [], productTypes := [], skinType := none, skinSensitivity := none
    allergies := [], budgetRange := (0, 500), primaryConcerns := [], secondaryConcerns := [] }

/-- A product whose only scoring factor is its high rating: price 0 (so no
budget bonus), one recognized ingredient, rating 5. -/
def bonusOnlyProduct : Product :=
  { product_id := "q1", product_name := "Plain Toner", brand_name := none, category_path := none
    price_mrp := 0, rating_avg := some 5
    ingredients_extracted := .arr [.str "Aqua"], benefits_extracted := .null }

/-- A cleanser that contains the user's avoid ingredient fragrance. -/
def fragranceCleanser : Product :=
  { product_id := "p1", product_name := "Pure Fragrance Cleanser", brand_name := some "B"
    category_path := some "skincare/cleanser", price_mrp := 25, rating_avg := none
    ingredients_extracted := .arr [.str "Fragrance"], benefits_extracted := .null }

/-- A serum that contains niacinamide, used by the monotonicity witness. -/
def niacinamideSerum : Product :=
  { product_id := "p2", product_name := "Balanced Face Serum", brand_name := some "B"
    category_path := some "skincare/serum", price_mrp := 25, rating_avg := none
    ingredients_extracted := .arr [.str "Niacinamide"], benefits_extracted := .null }

/-- The same serum without niacinamide. -/
def plainSerum : Product :=
  { product_id := "p3", product_name := "Balanced Face Serum", brand_name := some "B"
    category_path := some "skincare/serum", price_mrp := 25, rating_avg := none
    ingredients_extracted := .arr [.str "Aqua"], benefits_extracted := .null }

/-- Criteria that require niacinamide. -/
def niacinamideCriteria : Criteria :=
  { emptyCriteria with mustHaveIngredients := ["Niacinamide"] }

/-- Two available products mentioned by a model response that contains no
JSON object and no occurrence of the word morning. -/
def twoAvailProducts : List AvailProduct :=
  [{ id := "a1", name := "Alpha Serum", brand := some "BrandA", type := "serum",
     price := 30, ingredients := .null },
   { id := "b1", name := "Beta Cream", brand := some "BrandB", type := "moisturizer",
     price := 40, ingredients := .null }]

/-- A free-text model response mentioning both products and not the word
morning. -/
def textBothProducts : String := "Alpha Serum and Beta Cream are both great picks"

/-- A low-scoring product whose name mentions both cleanser and serum; the
category detector routes it to cleanser. -/
def duoProduct : Product :=
  { product_id := "s1", product_name := "Cleanser Serum Duo", brand_name := none
    category_path := none, price_mrp := 10, rating_avg := none
    ingredients_extracted := .null, benefits_extracted := .null }

/-- The duo product with a low score, as input to the grouper. -/
def duoScored : ScoredProduct := { prod := duoProduct, score := 3, matchReasons := [] }

/-- A routine item the model could emit for fragranceCleanser. -/
def itemP1 : RoutineItem :=
  { productId := some "p1", productName := some "Pure Fragrance Cleanser", brandName := some "B"
    productType := "cleanser", price := 25, applicationOrder := 1, keyIngredients := [] }

theorem getKey_setKey {α : Type} (m : List (String × α)) (k : String) (v : α) (k' : String) :
    getKey (setKey m k v) k' = if k = k' then some v else getKey m k' := by
  induction m with
  | nil => simp [setKey, getKey]
  | cons kv rest ih =>
    by_cases h : kv.1 = k
    · simp only [setKey, if_pos h, getKey]
      by_cases h' : k = k'
      · simp [h']
      · simp [h', h ▸ h']
    · simp only [setKey, if_neg h, getKey]
      by_cases h' : kv.1 = k'
      · have : ¬ k = k' := fun hk => h (hk ▸ h')
        simp [h', this]
      · simp [h', ih]

theorem mem_jsSetDedup_aux (l : List String) (acc : List String) (x : String) :
    x ∈ l.foldl (fun acc y => if acc.contains y then acc else acc ++ [y]) acc ↔
      x ∈ acc ∨ x ∈ l := by
  induction l generalizing acc with
  | nil => simp
  | cons y l ih =>
    simp only [List.foldl_cons]
    by_cases h : acc.contains y
    · rw [if_pos h, ih]
      have hy : y ∈ acc := by simpa using h
      constructor
      · rintro (hx | hx)
        · exact Or.inl hx
        · exact Or.inr (List.mem_cons_of_mem _ hx)
      · rintro (hx | hx)
        · exact Or.inl hx
        · rcases List.mem_cons.mp hx with rfl | hx
          · exact Or.inl hy
          · exact Or.inr hx
    · rw [if_neg h, ih]
      simp only [List.mem_append, List.mem_singleton, List.mem_cons]
      tauto

theorem mem_jsSetDedup (l : List String) (x : String) : x ∈ jsSetDedup l ↔ x ∈ l := by
  unfold jsSetDedup
  rw [mem_jsSetDedup_aux]
  simp

theorem tallyPhase_fst {α : Type} (p : α → Bool) (k : Int) (reason : α → String)
    (l : List α) (acc : Int × List String) :
    (tallyPhase p k reason l acc).1 = acc.1 + k * l.countP p := by
  induction l generalizing acc with
  | nil => simp [tallyPhase]
  | cons a l ih =>
    have hstep : tallyPhase p k reason (a :: l) acc
        = tallyPhase p k reason l (if p a then (acc.1 + k, acc.2 ++ [reason a]) else acc) := rfl
    rw [hstep, ih, List.countP_cons]
    by_cases h : p a <;> simp [h] <;> push_cast <;> ring

theorem avoidPhase_strict (ings : List String) (l : List String) :
    avoidPhase ings true l =
      match l.find? (fun a => avoidMatch ings a) with
      | some a => .disq a
      | none => .cont 0 [] := by
  induction l with
  | nil => rfl
  | cons a l ih =>
    by_cases h : avoidMatch ings a
    · simp [avoidPhase, h, List.find?_cons_of_pos]
    · simp [avoidPhase, h, List.find?_cons_of_neg, ih]

theorem avoidPhase_false (ings : List String) (l : List String) :
    ∃ rs, avoidPhase ings false l
      = .cont (-50 * (l.countP fun a => avoidMatch ings a)) rs := by
  induction l with
  | nil => exact ⟨[], by simp [avoidPhase]⟩
  | cons a l ih =>
    obtain ⟨rs, hrs⟩ := ih
    by_cases h : avoidMatch ings a
    · refine ⟨("Contains " ++ a ++ " (should avoid)") :: rs, ?_⟩
      simp only [avoidPhase, h, if_pos, Bool.false_eq_true, if_false, hrs]
      congr 1
      rw [List.countP_cons]
      simp [h]
      push_cast
      ring
    · refine ⟨rs, ?_⟩
      simp only [avoidPhase, h, Bool.false_eq_true, if_false, hrs]
      congr 2
      rw [List.countP_cons]
      simp [h]

theorem skinPhase_fst (bens : List String) (nameL : String) (st : Option String)
    (acc : Int × List String) :
    (skinPhase bens nameL st acc).1 = acc.1 + skinBonus bens nameL st := by
  cases st <;> simp [skinPhase, skinBonus] <;> split_ifs <;> simp

theorem budgetPhase_fst (price : ℚ) (range : ℚ × ℚ) (acc : Int × List String) :
    (budgetPhase price range acc).1 = acc.1 + budgetBonus price range := by
  unfold budgetPhase budgetBonus
  split_ifs <;> simp

theorem floorPhase_fst (ings : List String) (acc : Int × List String) :
    (floorPhase ings acc).1 = if acc.1 = 0 ∧ 0 < ings.length then 5 else acc.1 := by
  unfold floorPhase
  split_ifs <;> rfl

theorem ratingPhase_fst (rating : Option ℚ) (acc : Int × List String) :
    (ratingPhase rating acc).1 = acc.1 + ratingBonus rating := by
  cases rating <;> simp [ratingPhase, ratingBonus] <;> split_ifs <;> simp

theorem factorPhases_fst (c : Criteria) (ings bens : List String) (nameL catL : String)
    (price : ℚ) (rating : Option ℚ) (acc0 : Int × List String) :
    (factorPhases c ings bens nameL catL price rating acc0).1 =
      (if acc0.1 + 100 * (c.mustHaveIngredients.countP fun m => ingNameMatch ings nameL m)
            + 50 * (c.beneficialIngredients.countP fun b => ingNameMatch ings nameL b)
            + 30 * (c.primaryConcerns.countP fun q => concernMatch bens nameL catL q)
            + skinBonus bens nameL c.skinType + budgetBonus price c.budgetRange = 0
          ∧ 0 < ings.length then 5
       else acc0.1 + 100 * (c.mustHaveIngredients.countP fun m => ingNameMatch ings nameL m)
            + 50 * (c.beneficialIngredients.countP fun b => ingNameMatch ings nameL b)
            + 30 * (c.primaryConcerns.countP fun q => concernMatch bens nameL catL q)
            + skinBonus bens nameL c.skinType + budgetBonus price c.budgetRange)
      + ratingBonus rating := by
  unfold factorPhases
  rw [ratingPhase_fst, floorPhase_fst, budgetPhase_fst, skinPhase_fst, tallyPhase_fst,
    tallyPhase_fst, tallyPhase_fst]

/-- Closed form of the score computed by scoreProduct when field extraction
succeeds: 0 on a strict disqualification, the six-factor sum with floor and
rating bonus otherwise. -/
theorem scoreProduct_score (p : Product) (c : Criteria) (strict : Bool) (ings bens : List String)
    (hi : extractIngredientNames p.ingredients_extracted = .ok ings)
    (hb : extractBenefitNames p.benefits_extracted = .ok bens) :
    (scoreProduct p c strict).score =
      if strict = true ∧ (c.avoidIngredients.find? fun a => avoidMatch ings a).isSome = true then 0
      else specScore c ings bens (strLower p.product_name) (strLower (p.category_path.getD ""))
        p.price_mrp p.rating_avg := by
  cases strict with
  | false =>
    obtain ⟨rs, hrs⟩ := avoidPhase_false ings c.avoidIngredients
    simp only [scoreProduct, scoreProductBody, hi, hb, Except.bind, hrs]
    rw [factorPhases_fst]
    simp only [Bool.false_eq_true, false_and, if_false, specScore, preScore]
  | true =>
    cases hf : c.avoidIngredients.find? fun a => avoidMatch ings a with
    | some a =>
      simp [scoreProduct, scoreProductBody, hi, hb, Except.bind, avoidPhase_strict, hf]
    | none =>
      have hc : (c.avoidIngredients.countP fun a => avoidMatch ings a) = 0 :=
        List.countP_eq_zero.mpr (List.find?_eq_none.mp hf)
      simp only [scoreProduct, scoreProductBody, hi, hb, Except.bind, avoidPhase_strict, hf]
      rw [factorPhases_fst]
      simp [specScore, preScore, hc]

/-- In strict mode, the first matching avoid ingredient disqualifies the
product outright with the reason naming it. -/
theorem scoreProduct_disq (p : Product) (c : Criteria) (ings bens : List String) (a : String)
    (hi : extractIngredientNames p.ingredients_extracted = .ok ings)
    (hb : extractBenefitNames p.benefits_extracted = .ok bens)
    (hf : (c.avoidIngredients.find? fun x => avoidMatch ings x) = some a) :
    scoreProduct p c true =
      { prod := p, score := 0, matchReasons := ["Contains " ++ a ++ " (must avoid)"] } := by
  simp [scoreProduct, scoreProductBody, hi, hb, Except.bind, avoidPhase_strict, hf]

theorem countP_succ_le_of_pointwise {α : Type} (l : List α) (p q : α → Bool)
    (hpq : ∀ x ∈ l, p x = true → q x = true)
    (hex : ∃ x ∈ l, q x = true ∧ p x = false) :
    l.countP p + 1 ≤ l.countP q := by
  induction l with
  | nil => simp at hex
  | cons a l ih =>
    rw [List.countP_cons, List.countP_cons]
    obtain ⟨x, hxmem, hqx, hpx⟩ := hex
    rcases List.mem_cons.mp hxmem with rfl | hxl
    · have hle : l.countP p ≤ l.countP q :=
        List.countP_mono_left fun y hy hpy => hpq y (List.mem_cons_of_mem _ hy) hpy
      simp [hpx, hqx]
      omega
    · have hrec := ih (fun y hy hpy => hpq y (List.mem_cons_of_mem _ hy) hpy) ⟨x, hxl, hqx, hpx⟩
      have hpa : p a = true → q a = true := hpq a (List.mem_cons_self _ _)
      by_cases h : p a
      · simp [h, hpa h]
        omega
      · simp [h]
        split_ifs <;> omega

/-! ## Claim theorems -/

/-- C7: the ingredient normalizer is total on its public input space — for
null, [], a list of strings, a list of objects with name fields, an object
with an ingredients_list field, a bare string, the empty object and the
number 42 it returns lower-cased names without raising, and the empty list
in the unrecognized-object and numeric cases. -/
theorem c7_normalizer_total_shapes :
    extractIngredientNames .null = .ok []
    ∧ extractIngredientNames (.arr []) = .ok []
    ∧ extractIngredientNames (.arr [.str "Aqua", .str "Niacinamide"]) = .ok ["aqua", "niacinamide"]
    ∧ extractIngredientNames (.arr [.obj [("name", .str "Retinol")], .obj [("ingredient", .str "Zinc")]])
        = .ok ["retinol", "zinc"]
    ∧ extractIngredientNames (.obj [("ingredients_list", .arr [.str "Water", .str "Glycerin"])])
        = .ok ["water", "glycerin"]
    ∧ extractIngredientNames (.str "Single String") = .ok ["single string"]
    ∧ extractIngredientNames (.obj []) = .ok []
    ∧ extractIngredientNames (.num 42) = .ok [] :=
  ⟨rfl, rfl, rfl, rfl, rfl, rfl, rfl, rfl⟩

/-- C6 counterexample: with model avoid list [Fragrance] and allergies
[fragrance], the built avoid list keeps BOTH entries, although they differ
only in letter case — the union is exact-string, not case-insensitive. -/
theorem c6_counterexample :
    (extractFilterCriteria analysisAvoidFragranceCap profileAllergicFragrance).avoidIngredients
      = ["Fragrance", "fragrance"]
    ∧ strLower "Fragrance" = strLower "fragrance" := by
  exact ⟨by decide, by decide⟩

/-- C6 (amended): the avoidIngredients list of the built criteria is the
exact-string (case-sensitive) de-duplicated union of the analysis avoid list
and the user's declared allergies: an entry is present iff it occurs verbatim
in one of the two inputs. -/
theorem c6_avoid_union_exact (A : Analysis) (Pr : UserProfile) (x : String) :
    x ∈ (extractFilterCriteria A Pr).avoidIngredients ↔
      (x ∈ (match A.ingredientRecommendations with
            | some recs => recs.avoid
            | none => []) ∨ x ∈ Pr.known_allergies.getD []) := by
  obtain ⟨ir, rs, tp⟩ := A
  cases ir <;> cases rs <;> cases tp <;>
    simp [extractFilterCriteria, mem_jsSetDedup, List.mem_append]

/-- C4 counterexample: a product whose only firing factor is the quality
bonus (price 0, one recognized ingredient, rating 5) scores 20 — the base
floor of 5 fires BEFORE the bonus is added — not the 15 the claim requires,
and its reasons show the floor fired. -/
theorem c4_counterexample :
    (scoreProduct bonusOnlyProduct emptyCriteria false).score = 20
    ∧ ¬ (scoreProduct bonusOnlyProduct emptyCriteria false).score = 15
    ∧ (scoreProduct bonusOnlyProduct emptyCriteria false).matchReasons
        = ["Valid skincare product", "Highly rated (5★)"] := by
  exact ⟨by decide, by decide, by decide⟩

/-- C4 (amended): when extraction succeeds and the product is not strictly
disqualified, the scorer applies avoidance, must-have (+100 each), beneficial
(+50 each), concern (+30 each), skin type (+20), budget (+10), THEN the base
floor (5, reason valid skincare product, exactly when those six factors net
zero and an ingredient was recognized), and LAST the quality bonus (+15 for
rating at least 4), which is added on top of the floor. -/
theorem c4_floor_before_bonus (p : Product) (c : Criteria) (strict : Bool)
    (ings bens : List String)
    (hi : extractIngredientNames p.ingredients_extracted = .ok ings)
    (hb : extractBenefitNames p.benefits_extracted = .ok bens)
    (hnd : ¬ (strict = true ∧ (c.avoidIngredients.find? fun a => avoidMatch ings a).isSome = true)) :
    (scoreProduct p c strict).score =
      (if preScore c ings bens (strLower p.product_name) (strLower (p.category_path.getD ""))
            p.price_mrp = 0 ∧ 0 < ings.length then 5
       else preScore c ings bens (strLower p.product_name) (strLower (p.category_path.getD ""))
            p.price_mrp)
      + ratingBonus p.rating_avg := by
  rw [scoreProduct_score p c strict ings bens hi hb, if_neg hnd]
  rfl

/-- C4 witness: the amended order theorem evaluated at the bonus-only product. -/
theorem c4_floor_before_bonus_witness :
    (scoreProduct bonusOnlyProduct emptyCriteria false).score =
      (if preScore emptyCriteria ["aqua"] [] (strLower bonusOnlyProduct.product_name)
            (strLower (bonusOnlyProduct.category_path.getD "")) bonusOnlyProduct.price_mrp = 0
          ∧ 0 < (["aqua"] : List String).length then 5
       else preScore emptyCriteria ["aqua"] [] (strLower bonusOnlyProduct.product_name)
            (strLower (bonusOnlyProduct.category_path.getD "")) bonusOnlyProduct.price_mrp)
      + ratingBonus bonusOnlyProduct.rating_avg :=
  c4_floor_before_bonus bonusOnlyProduct emptyCriteria false ["aqua"] [] rfl rfl (by decide)

/-- C2 (amended): in strict mode an avoid-ingredient substring match
disqualifies the product at score 0 with a reason naming the first matching
avoid entry, and a strictly scored product with positive score matches no
avoid ingredient (so none survives the score-above-zero filter); in lenient
mode the same match subtracts 50 points per matching avoid entry while the
remaining factors are still scored (the closed form specScore). -/
theorem c2_strict_and_lenient_avoidance (p : Product) (c : Criteria) (ings bens : List String)
    (hi : extractIngredientNames p.ingredients_extracted = .ok ings)
    (hb : extractBenefitNames p.benefits_extracted = .ok bens) :
    (∀ a, (c.avoidIngredients.find? fun x => avoidMatch ings x) = some a →
        scoreProduct p c true =
          { prod := p, score := 0, matchReasons := ["Contains " ++ a ++ " (must avoid)"] })
    ∧ (0 < (scoreProduct p c true).score → ∀ a ∈ c.avoidIngredients, avoidMatch ings a = false)
    ∧ (scoreProduct p c false).score =
        specScore c ings bens (strLower p.product_name) (strLower (p.category_path.getD ""))
          p.price_mrp p.rating_avg := by
  refine ⟨fun a hf => scoreProduct_disq p c ings bens a hi hb hf, ?_, ?_⟩
  · intro hpos a ha
    by_contra hm
    simp only [Bool.not_eq_false] at hm
    have hsome : (c.avoidIngredients.find? fun x => avoidMatch ings x).isSome = true :=
      List.find?_isSome.mpr ⟨a, ha, hm⟩
    rw [scoreProduct_score p c true ings bens hi hb, if_pos ⟨rfl, hsome⟩] at hpos
    exact absurd hpos (by norm_num)
  · rw [scoreProduct_score p c false ings bens hi hb]
    simp

/-- C2 witness: the strict branch of the amended theorem evaluated at the
fragrance cleanser against the criteria built from the allergic profile. -/
theorem c2_strict_and_lenient_avoidance_witness :
    scoreProduct fragranceCleanser
        (extractFilterCriteria emptyAnalysis profileAllergicFragrance) true =
      { prod := fragranceCleanser, score := 0,
        matchReasons := ["Contains fragrance (must avoid)"] } :=
  (c2_strict_and_lenient_avoidance fragranceCleanser
    (extractFilterCriteria emptyAnalysis profileAllergicFragrance)
    ["fragrance"] [] rfl rfl).1 "fragrance" rfl

/-- C2 counterexample: under strict avoidance the fragrance cleanser is
disqualified (score 0), so nothing passes the filter and the empty-result
fallback re-admits every product at score 10; the downstream fallback
composer then emits routine items backed by that very product — a routine
item whose underlying product contains the avoided ingredient. -/
theorem c2_counterexample :
    (scoreProduct fragranceCleanser
        (extractFilterCriteria emptyAnalysis profileAllergicFragrance) true).score = 0
    ∧ avoidMatch ["fragrance"] "fragrance" = true
    ∧ (selectFinalProductsWithAI
          (convertToProductsByType
            (filterProductsForUser [fragranceCleanser] emptyAnalysis profileAllergicFragrance
              10 true).productsByCategory)
          .callFailed).map (fun r => (recItems r).map fun it => it.productId)
        = .ok [some "p1", some "p1"] := by
  exact ⟨by decide, by decide, rfl⟩

/-- C9: on the free-text parsing path, every pushed item gets
applicationOrder = morningRoutine.length + 1 even when it is pushed into the
EVENING routine, so mentioning two products in a text without the word
morning yields two evening items both ordered 1 — not pairwise distinct. -/
theorem c9_duplicate_application_orders :
    (((parseTextResponse textBothProducts twoAvailProducts).eveningRoutine.getD []).map
        fun it => it.applicationOrder) = [1, 1]
    ∧ ¬ ((((parseTextResponse textBothProducts twoAvailProducts).eveningRoutine.getD []).map
        fun it => it.applicationOrder)).Nodup := by
  exact ⟨by decide, by decide⟩

/-- C5: for two products identical in every scoring factor except that the
second matches every must-have ingredient the first matches plus at least one
more (substring match against normalized ingredients or name), the second
product's score is never lower, under either avoidance mode. -/
theorem c5_musthave_monotonic (p₁ p₂ : Product) (c : Criteria) (strict : Bool)
    (ings₁ ings₂ bens₁ bens₂ : List String)
    (hi₁ : extractIngredientNames p₁.ingredients_extracted = .ok ings₁)
    (hi₂ : extractIngredientNames p₂.ingredients_extracted = .ok ings₂)
    (hb₁ : extractBenefitNames p₁.benefits_extracted = .ok bens₁)
    (hb₂ : extractBenefitNames p₂.benefits_extracted = .ok bens₂)
    (havoid : ∀ a ∈ c.avoidIngredients, avoidMatch ings₁ a = avoidMatch ings₂ a)
    (hmust : ∀ m ∈ c.mustHaveIngredients,
      ingNameMatch ings₁ (strLower p₁.product_name) m = true →
        ingNameMatch ings₂ (strLower p₂.product_name) m = true)
    (hextra : ∃ m ∈ c.mustHaveIngredients,
      ingNameMatch ings₂ (strLower p₂.product_name) m = true ∧
        ingNameMatch ings₁ (strLower p₁.product_name) m = false)
    (hben : ∀ b ∈ c.beneficialIngredients,
      ingNameMatch ings₁ (strLower p₁.product_name) b =
        ingNameMatch ings₂ (strLower p₂.product_name) b)
    (hcon : ∀ q ∈ c.primaryConcerns,
      concernMatch bens₁ (strLower p₁.product_name) (strLower (p₁.category_path.getD "")) q =
        concernMatch bens₂ (strLower p₂.product_name) (strLower (p₂.category_path.getD "")) q)
    (hskin : skinBonus bens₁ (strLower p₁.product_name) c.skinType =
      skinBonus bens₂ (strLower p₂.product_name) c.skinType)
    (hprice : p₁.price_mrp = p₂.price_mrp)
    (hrating : p₁.rating_avg = p₂.rating_avg) :
    (scoreProduct p₁ c strict).score ≤ (scoreProduct p₂ c strict).score := by
  rw [scoreProduct_score p₁ c strict ings₁ bens₁ hi₁ hb₁,
    scoreProduct_score p₂ c strict ings₂ bens₂ hi₂ hb₂]
  have hfind : ((c.avoidIngredients.find? fun a => avoidMatch ings₁ a).isSome = true)
      ↔ ((c.avoidIngredients.find? fun a => avoidMatch ings₂ a).isSome = true) := by
    rw [List.find?_isSome, List.find?_isSome]
    constructor
    · rintro ⟨x, hx, hm⟩
      exact ⟨x, hx, (havoid x hx) ▸ hm⟩
    · rintro ⟨x, hx, hm⟩
      exact ⟨x, hx, (havoid x hx).symm ▸ hm⟩
  by_cases h2 : strict = true ∧ (c.avoidIngredients.find? fun a => avoidMatch ings₂ a).isSome = true
  · rw [if_pos ⟨h2.1, hfind.mpr h2.2⟩, if_pos h2]
  · rw [if_neg (fun hc => h2 ⟨hc.1, hfind.mp hc.2⟩), if_neg h2]
    have hca : (c.avoidIngredients.countP fun a => avoidMatch ings₁ a)
        = (c.avoidIngredients.countP fun a => avoidMatch ings₂ a) :=
      List.countP_congr fun x hx => by rw [havoid x hx]
    have hcb : (c.beneficialIngredients.countP fun b =>
          ingNameMatch ings₁ (strLower p₁.product_name) b)
        = (c.beneficialIngredients.countP fun b =>
          ingNameMatch ings₂ (strLower p₂.product_name) b) :=
      List.countP_congr fun x hx => by rw [hben x hx]
    have hcp : (c.primaryConcerns.countP fun q =>
          concernMatch bens₁ (strLower p₁.product_name) (strLower (p₁.category_path.getD "")) q)
        = (c.primaryConcerns.countP fun q =>
          concernMatch bens₂ (strLower p₂.product_name) (strLower (p₂.category_path.getD "")) q) :=
      List.countP_congr fun x hx => by rw [hcon x hx]
    have hcm : (c.mustHaveIngredients.countP fun m =>
          ingNameMatch ings₁ (strLower p₁.product_name) m) + 1
        ≤ (c.mustHaveIngredients.countP fun m =>
          ingNameMatch ings₂ (strLower p₂.product_name) m) :=
      countP_succ_le_of_pointwise _ _ _ hmust hextra
    simp only [specScore, preScore, hca, hcb, hcp, hskin, hprice, hrating]
    set ca := (c.avoidIngredients.countP fun a => avoidMatch ings₂ a) with hca2
    set m1 := (c.mustHaveIngredients.countP fun m =>
      ingNameMatch ings₁ (strLower p₁.product_name) m) with hm1
    set m2 := (c.mustHaveIngredients.countP fun m =>
      ingNameMatch ings₂ (strLower p₂.product_name) m) with hm2
    set cb := (c.beneficialIngredients.countP fun b =>
      ingNameMatch ings₂ (strLower p₂.product_name) b) with hcb2
    set cp := (c.primaryConcerns.countP fun q =>
      concernMatch bens₂ (strLower p₂.product_name) (strLower (p₂.category_path.getD "")) q)
      with hcp2
    set sb := skinBonus bens₂ (strLower p₂.product_name) c.skinType with hsb
    set bb := budgetBonus p₂.price_mrp c.budgetRange with hbb
    set rb := ratingBonus p₂.rating_avg with hrb
    set e1 := ings₁.length with he1
    set e2 := ings₂.length with he2
    split_ifs <;> omega

/-- C5 witness: the monotonicity theorem at two serums identical except that
the second contains the required niacinamide. -/
theorem c5_musthave_monotonic_witness :
    (scoreProduct plainSerum niacinamideCriteria false).score ≤
      (scoreProduct niacinamideSerum niacinamideCriteria false).score :=
  c5_musthave_monotonic plainSerum niacinamideSerum niacinamideCriteria false
    ["aqua"] ["niacinamide"] [] [] rfl rfl rfl rfl
    (by decide) (by decide) (by decide) (by decide) (by decide) (by decide) rfl rfl

/-! ## Association-list and grouping lemmas -/

theorem getKey_setKey_self {α : Type} (m : List (String × α)) (k : String) (v : α) :
    getKey (setKey m k v) k = some v := by
  rw [getKey_setKey]
  simp

theorem getKey_setKey_ne {α : Type} (m : List (String × α)) (k : String) (v : α) (k' : String)
    (h : k ≠ k') : getKey (setKey m k v) k' = getKey m k' := by
  rw [getKey_setKey]
  simp [h]

theorem ensureKey_getKey_self (cats : List (String × List ScoredProduct)) (k : String) :
    getKey (ensureKey cats k) k = some ((getKey cats k).getD []) := by
  unfold ensureKey
  cases h : getKey cats k <;> simp [h, getKey_setKey_self]

theorem ensureKey_getKey_ne (cats : List (String × List ScoredProduct)) (k k' : String)
    (h : k ≠ k') : getKey (ensureKey cats k) k' = getKey cats k' := by
  unfold ensureKey
  cases hh : getKey cats k <;> simp [getKey_setKey_ne _ _ _ _ h]

theorem groupStep_getKey_ne (maxPerCategory : Nat) (cats : List (String × List ScoredProduct))
    (p' : ScoredProduct) (cat : String) (h : detectProductCategory p' ≠ cat) :
    getKey (groupStep maxPerCategory cats p') cat = getKey cats cat := by
  unfold groupStep pushCapped
  split_ifs with hlen
  · rw [getKey_setKey_ne _ _ _ _ h, ensureKey_getKey_ne _ _ _ h]
  · rw [ensureKey_getKey_ne _ _ _ h]

/-- Processing one more product preserves a recorded membership q in its
category list. -/
theorem groupStep_memAt (maxPerCategory : Nat) (cats : List (String × List ScoredProduct))
    (p' : ScoredProduct) (cat : String) (q : ScoredProduct) (l : List ScoredProduct)
    (h : getKey cats cat = some l) (hq : q ∈ l) :
    ∃ l', getKey (groupStep maxPerCategory cats p') cat = some l' ∧ q ∈ l' := by
  by_cases hc : detectProductCategory p' = cat
  · unfold groupStep pushCapped
    rw [hc, ensureKey_getKey_self, h]
    split_ifs with hlen
    · refine ⟨l ++ [p'], ?_, List.mem_append_left _ hq⟩
      rw [getKey_setKey_self]
      simp [ensureKey_getKey_self, h]
    · refine ⟨l, ?_, hq⟩
      rw [ensureKey_getKey_self, h]
      simp
  · exact ⟨l, by rw [groupStep_getKey_ne _ _ _ _ hc, h], hq⟩

theorem foldl_groupStep_memAt (ps : List ScoredProduct) (maxPerCategory : Nat)
    (cats : List (String × List ScoredProduct)) (cat : String) (q : ScoredProduct)
    (l : List ScoredProduct) (h : getKey cats cat = some l) (hq : q ∈ l) :
    ∃ l', getKey (ps.foldl (groupStep maxPerCategory) cats) cat = some l' ∧ q ∈ l' := by
  induction ps generalizing cats l with
  | nil => exact ⟨l, h, hq⟩
  | cons p' ps ih =>
    obtain ⟨l', h', hq'⟩ := groupStep_memAt maxPerCategory cats p' cat q l h hq
    exact ih _ _ h' hq'

/-- The first product processed lands in its detected category (cap ≥ 1). -/
theorem groupStep_nil_self (maxPerCategory : Nat) (q : ScoredProduct)
    (hmax : 1 ≤ maxPerCategory) :
    getKey (groupStep maxPerCategory [] q) (detectProductCategory q) = some [q] := by
  unfold groupStep pushCapped
  have h0 : getKey ([] : List (String × List ScoredProduct)) (detectProductCategory q) = none := rfl
  rw [ensureKey_getKey_self, h0]
  simp only [Option.getD_none, Option.getD_some, List.length_nil]
  rw [if_pos (by omega)]
  rw [getKey_setKey_self]
  simp

/-- A backfill step for any category preserves a nonempty category list. -/
theorem backfillStep_getKey_stable (prods : List ScoredProduct)
    (cats : List (String × List ScoredProduct)) (cat cat' : String) (l : List ScoredProduct)
    (h : getKey cats cat = some l) (hne : l ≠ []) :
    getKey (backfillStep prods cats cat') cat = some l := by
  unfold backfillStep
  by_cases hc : cat' = cat
  · subst hc
    rw [h]
    obtain ⟨a, as, rfl⟩ := List.exists_cons_of_ne_nil hne
    exact h
  · have hc' : cat' ≠ cat := hc
    cases hgk : getKey cats cat' with
    | none =>
      cases hfind : prods.find? (backfillPred cat') with
      | none => simpa [hfind] using h
      | some fb => simp [hfind, getKey_setKey_ne _ _ _ _ hc', h]
    | some l2 =>
      cases l2 with
      | nil =>
        cases hfind : prods.find? (backfillPred cat') with
        | none => simpa [hgk, hfind] using h
        | some fb => simp [hgk, hfind, getKey_setKey_ne _ _ _ _ hc', h]
      | cons a as => simpa [hgk] using h

/-- A backfill step for a category with some product passing the relaxed test
leaves that category nonempty. -/
theorem backfillStep_self_nonempty (prods : List ScoredProduct)
    (cats : List (String × List ScoredProduct)) (cat : String)
    (hex : ∃ p ∈ prods, backfillPred cat p = true) :
    ∃ l, getKey (backfillStep prods cats cat) cat = some l ∧ l ≠ [] := by
  unfold backfillStep
  obtain ⟨fb, hfb⟩ := Option.isSome_iff_exists.mp (List.find?_isSome.mpr hex)
  cases hgk : getKey cats cat with
  | none =>
    refine ⟨[fb], ?_, by simp⟩
    simp [hfb, getKey_setKey_self]
  | some l =>
    cases l with
    | nil =>
      refine ⟨[fb], ?_, by simp⟩
      simp [hgk, hfb, getKey_setKey_self]
    | cons a as => exact ⟨a :: as, by simp [hgk], by simp⟩

/-- C8: for each essential category (cleanser, serum, moisturizer), whenever
any product of the FULL scored input list passes the relaxed name test for
that category, the grouper's output has a nonempty list for it — either the
main grouping filled it, or the best-effort backfill installed a candidate. -/
theorem c8_essential_backfill (products : List ScoredProduct) (maxPerCategory : Nat)
    (cat : String) (hcat : cat ∈ keyCategories)
    (hex : ∃ p ∈ products, backfillPred cat p = true) :
    ∃ l, getKey (groupProductsByCategory products maxPerCategory) cat = some l ∧ l ≠ [] := by
  unfold groupProductsByCategory
  simp only [keyCategories, List.foldl_cons, List.foldl_nil]
  have hcat' : cat = "cleanser" ∨ cat = "serum" ∨ cat = "moisturizer" := by
    simpa [keyCategories] using hcat
  rcases hcat' with rfl | rfl | rfl
  · obtain ⟨l, hl, hne⟩ := backfillStep_self_nonempty products
      (products.foldl (groupStep maxPerCategory) []) "cleanser" hex
    have h2 := backfillStep_getKey_stable products _ "cleanser" "serum" l hl hne
    have h3 := backfillStep_getKey_stable products _ "cleanser" "moisturizer" l h2 hne
    exact ⟨l, h3, hne⟩
  · obtain ⟨l, hl, hne⟩ := backfillStep_self_nonempty products
      (backfillStep products (products.foldl (groupStep maxPerCategory) []) "cleanser")
      "serum" hex
    have h3 := backfillStep_getKey_stable products _ "serum" "moisturizer" l hl hne
    exact ⟨l, h3, hne⟩
  · exact backfillStep_self_nonempty products
      (backfillStep products
        (backfillStep products (products.foldl (groupStep maxPerCategory) []) "cleanser")
        "serum")
      "moisturizer" hex

/-- C8 witness: a single low-scoring product named Cleanser Serum Duo is
routed to the cleanser category by detection, and the serum backfill still
recovers it for the serum category. -/
theorem c8_essential_backfill_witness :
    ∃ l, getKey (groupProductsByCategory [duoScored] 10) "serum" = some l ∧ l ≠ [] :=
  c8_essential_backfill [duoScored] 10 "serum" (by decide) (by decide)

/-- Every product stored in a category list by one grouping step was either
already stored or is the processed product. -/
theorem groupStep_vals (maxPerCategory : Nat) (cats : List (String × List ScoredProduct))
    (p' : ScoredProduct) (ps : List ScoredProduct)
    (hvals : ∀ cat l sp, getKey cats cat = some l → sp ∈ l → sp ∈ ps) (hp' : p' ∈ ps) :
    ∀ cat l sp, getKey (groupStep maxPerCategory cats p') cat = some l → sp ∈ l → sp ∈ ps := by
  intro cat l sp hget hsp
  by_cases hc : detectProductCategory p' = cat
  · unfold groupStep pushCapped at hget
    rw [hc, ensureKey_getKey_self] at hget
    split_ifs at hget with hlen
    · rw [getKey_setKey_self] at hget
      have hl : ((getKey cats cat).getD []) ++ [p'] = l := by
        have := Option.some.inj hget
        simpa using this
      subst hl
      rcases List.mem_append.mp hsp with hin | hin
      · cases hold : getKey cats cat with
        | none => rw [hold] at hin; simp at hin
        | some l0 =>
          rw [hold] at hin
          exact hvals cat l0 sp hold (by simpa using hin)
      · rw [List.mem_singleton.mp hin]
        exact hp'
    · rw [ensureKey_getKey_self] at hget
      have hl : ((getKey cats cat).getD []) = l := Option.some.inj hget
      subst hl
      cases hold : getKey cats cat with
      | none => rw [hold] at hsp; simp at hsp
      | some l0 =>
        rw [hold] at hsp
        exact hvals cat l0 sp hold (by simpa using hsp)
  · rw [groupStep_getKey_ne _ _ _ _ hc] at hget
    exact hvals cat l sp hget hsp

theorem foldl_groupStep_vals : ∀ (li : List ScoredProduct) (maxPerCategory : Nat)
    (cats : List (String × List ScoredProduct)) (ps : List ScoredProduct),
    (∀ x ∈ li, x ∈ ps) →
    (∀ cat l sp, getKey cats cat = some l → sp ∈ l → sp ∈ ps) →
    ∀ cat l sp, getKey (li.foldl (groupStep maxPerCategory) cats) cat = some l →
      sp ∈ l → sp ∈ ps
  | [], _, _, _, _, hvals => hvals
  | p' :: li, maxPerCategory, cats, ps, hli, hvals =>
      foldl_groupStep_vals li maxPerCategory _ ps
        (fun x hx => hli x (List.mem_cons_of_mem _ hx))
        (groupStep_vals maxPerCategory cats p' ps hvals (hli p' (List.mem_cons_self _ _)))

theorem backfillStep_vals (prods : List ScoredProduct)
    (cats : List (String × List ScoredProduct)) (cat' : String) (ps : List ScoredProduct)
    (hprods : ∀ x ∈ prods, x ∈ ps)
    (hvals : ∀ cat l sp, getKey cats cat = some l → sp ∈ l → sp ∈ ps) :
    ∀ cat l sp, getKey (backfillStep prods cats cat') cat = some l → sp ∈ l → sp ∈ ps := by
  intro cat l sp hget hsp
  unfold backfillStep at hget
  split at hget
  · exact hvals _ _ _ hget hsp
  · split at hget
    · next fb hfind =>
      rw [getKey_setKey] at hget
      split_ifs at hget with hk
      · obtain rfl := Option.some.inj hget
        rw [List.mem_singleton.mp hsp]
        exact hprods fb (List.mem_of_find?_eq_some hfind)
      · exact hvals _ _ _ hget hsp
    · exact hvals _ _ _ hget hsp

/-- Every product in the grouper's output comes from its input list. -/
theorem mem_groupProductsByCategory (ps : List ScoredProduct) (maxPerCategory : Nat)
    (cat : String) (l : List ScoredProduct) (sp : ScoredProduct)
    (hget : getKey (groupProductsByCategory ps maxPerCategory) cat = some l) (hsp : sp ∈ l) :
    sp ∈ ps := by
  unfold groupProductsByCategory at hget
  simp only [keyCategories, List.foldl_cons, List.foldl_nil] at hget
  have base := foldl_groupStep_vals ps maxPerCategory [] ps (fun _ hx => hx)
    (fun cat l sp h _ => by simp [getKey] at h)
  have b1 := backfillStep_vals ps _ "cleanser" ps (fun _ hx => hx) base
  have b2 := backfillStep_vals ps _ "serum" ps (fun _ hx => hx) b1
  have b3 := backfillStep_vals ps _ "moisturizer" ps (fun _ hx => hx) b2
  exact b3 cat l sp hget hsp

/-- The first input product always appears in its detected category when the
cap is at least one. -/
theorem head_mem_groupProductsByCategory (q : ScoredProduct) (qs : List ScoredProduct)
    (maxPerCategory : Nat) (hmax : 1 ≤ maxPerCategory) :
    ∃ l, getKey (groupProductsByCategory (q :: qs) maxPerCategory)
        (detectProductCategory q) = some l ∧ q ∈ l := by
  unfold groupProductsByCategory
  simp only [keyCategories, List.foldl_cons, List.foldl_nil]
  obtain ⟨l, hl, hq⟩ := foldl_groupStep_memAt qs maxPerCategory
    (groupStep maxPerCategory [] q) (detectProductCategory q) q [q]
    (groupStep_nil_self maxPerCategory q hmax) (by simp)
  have hne : l ≠ [] := List.ne_nil_of_mem hq
  have h1 := backfillStep_getKey_stable (q :: qs) _ _ "cleanser" l hl hne
  have h2 := backfillStep_getKey_stable (q :: qs) _ _ "serum" l h1 hne
  have h3 := backfillStep_getKey_stable (q :: qs) _ _ "moisturizer" l h2 hne
  exact ⟨l, h3, hq⟩

/-- C10: when the catalog page is nonempty but no product scores above zero,
filterProductsForUser neither returns an empty result nor re-runs scoring in
a relaxed mode: its productsByCategory is exactly the grouping of EVERY
retrieved product re-scored to the uniform 10 with the single reason
'Available product' (so products containing avoided ingredients re-enter the
candidate set with a positive score), its totalFiltered is the page size, and
the first product's category is populated. -/
theorem c10_uniform_fallback (q : Product) (rest : List Product) (A : Analysis)
    (Pr : UserProfile) (maxPerCategory : Nat) (strict : Bool)
    (hmax : 1 ≤ maxPerCategory)
    (hnone : ∀ p ∈ q :: rest, (scoreProduct p (extractFilterCriteria A Pr) strict).score ≤ 0) :
    (filterProductsForUser (q :: rest) A Pr maxPerCategory strict).productsByCategory
        = groupProductsByCategory ((q :: rest).map fun p =>
            { prod := p, score := 10, matchReasons := ["Available product"] }) maxPerCategory
    ∧ (filterProductsForUser (q :: rest) A Pr maxPerCategory strict).totalFiltered
        = (q :: rest).length
    ∧ (∀ cat l, getKey (filterProductsForUser (q :: rest) A Pr maxPerCategory
          strict).productsByCategory cat = some l →
        ∀ sp ∈ l, sp.score = 10 ∧ sp.matchReasons = ["Available product"])
    ∧ (∃ l, getKey (filterProductsForUser (q :: rest) A Pr maxPerCategory
          strict).productsByCategory
          (detectProductCategory { prod := q, score := 10, matchReasons := ["Available product"] })
          = some l ∧ l ≠ []) := by
  have hfil : ((q :: rest).map fun p =>
      scoreProduct p (extractFilterCriteria A Pr) strict).filter
        (fun sp => 0 < sp.score) = [] := by
    rw [List.filter_eq_nil_iff]
    intro sp hsp
    rw [List.mem_map] at hsp
    obtain ⟨p, hp, rfl⟩ := hsp
    have := hnone p hp
    simp only [decide_eq_true_eq, not_lt]
    omega
  have hbranch : filterProductsForUser (q :: rest) A Pr maxPerCategory strict =
      { filterCriteria := extractFilterCriteria A Pr
        productsByCategory := groupProductsByCategory ((q :: rest).map fun p =>
          { prod := p, score := 10, matchReasons := ["Available product"] }) maxPerCategory
        totalFiltered := (q :: rest).length
        summaryAverageScore := 10 } := by
    simp only [filterProductsForUser]
    rw [hfil]
    simp [sortByScoreDesc, List.insertionSort]
  refine ⟨by rw [hbranch], by rw [hbranch], ?_, ?_⟩
  · intro cat l hget sp hsp
    rw [hbranch] at hget
    have hmem := mem_groupProductsByCategory _ maxPerCategory cat l sp hget hsp
    rw [List.mem_map] at hmem
    obtain ⟨p, hp, rfl⟩ := hmem
    exact ⟨rfl, rfl⟩
  · rw [hbranch]
    obtain ⟨l, hl, hq⟩ := head_mem_groupProductsByCategory
      { prod := q, score := 10, matchReasons := ["Available product"] }
      (rest.map fun p => { prod := p, score := 10, matchReasons := ["Available product"] })
      maxPerCategory hmax
    exact ⟨l, by simpa using hl, List.ne_nil_of_mem hq⟩

/-- C10 witness: the uniform-10 fallback theorem at a one-product strict-mode
page whose only product is disqualified. -/
theorem c10_uniform_fallback_witness :
    (filterProductsForUser [fragranceCleanser] emptyAnalysis profileAllergicFragrance
        10 true).productsByCategory
        = groupProductsByCategory (([fragranceCleanser]).map fun p =>
            { prod := p, score := 10, matchReasons := ["Available product"] }) 10
    ∧ (filterProductsForUser [fragranceCleanser] emptyAnalysis profileAllergicFragrance
        10 true).totalFiltered = ([fragranceCleanser]).length
    ∧ (∀ cat l, getKey (filterProductsForUser [fragranceCleanser] emptyAnalysis
          profileAllergicFragrance 10 true).productsByCategory cat = some l →
        ∀ sp ∈ l, sp.score = 10 ∧ sp.matchReasons = ["Available product"])
    ∧ (∃ l, getKey (filterProductsForUser [fragranceCleanser] emptyAnalysis
          profileAllergicFragrance 10 true).productsByCategory
          (detectProductCategory
            { prod := fragranceCleanser, score := 10, matchReasons := ["Available product"] })
          = some l ∧ l ≠ []) :=
  c10_uniform_fallback fragranceCleanser [] emptyAnalysis profileAllergicFragrance 10 true
    (by decide) (by decide)

/-! ## Selection-step lemmas and C1 -/

/-- Any item surviving identifier validation carries an id from the valid set. -/
theorem validateRoutine_mem (ids : List String) (o : Option (List RoutineItem))
    (it : RoutineItem) (h : it ∈ (validateRoutine ids o).getD []) :
    ∃ pid, it.productId = some pid ∧ ids.contains pid = true := by
  cases o with
  | none => simp [validateRoutine] at h
  | some items =>
    simp only [validateRoutine, Option.getD_some] at h
    obtain ⟨-, hpred⟩ := List.mem_filter.mp h
    cases hpid : it.productId with
    | none => rw [hpid] at hpred; simp at hpred
    | some pid =>
      rw [hpid] at hpred
      exact ⟨pid, rfl, hpred⟩

theorem fbCleansers_sub (ps : List FbProduct) (x : FbProduct) (h : x ∈ fbCleansers ps) :
    x ∈ ps := List.mem_of_mem_filter h

theorem fbSerums_sub (ps : List FbProduct) (x : FbProduct) (h : x ∈ fbSerums ps) : x ∈ ps := by
  unfold fbSerums at h
  exact List.mem_of_mem_filter ((List.perm_insertionSort _ _).mem_iff.mp h)

theorem fbMoisturizers_sub (ps : List FbProduct) (x : FbProduct) (h : x ∈ fbMoisturizers ps) :
    x ∈ ps := List.mem_of_mem_filter h

theorem except_bind_ok {α β : Type} (e : Except String α) (f : α → Except String β) (b : β)
    (h : e.bind f = .ok b) : ∃ a, e = .ok a ∧ f a = .ok b := by
  cases e with
  | error err => simp [Except.bind] at h
  | ok a => exact ⟨a, rfl, by simpa [Except.bind] using h⟩

theorem optItemM_ok_mem (o : Option FbProduct) (ptype : String) (order : Int)
    (l : List RoutineItem) (hok : optItemM o ptype order = .ok l) (it : RoutineItem)
    (h : it ∈ l) : ∃ c, o = some c ∧ it.productId = c.product_id := by
  cases o with
  | none =>
    obtain rfl : ([] : List RoutineItem) = l := by simpa [optItemM] using hok
    simp at h
  | some c =>
    unfold optItemM at hok
    obtain ⟨ki, -, hl⟩ := except_bind_ok _ _ _ hok
    have hsing : [mkFbItem c ptype order ki] = l := by simpa using hl
    subst hsing
    rw [List.mem_singleton.mp h]
    exact ⟨c, rfl, rfl⟩

theorem secondChoice_mem (l : List FbProduct) (x : FbProduct) (h : secondChoice l = some x) :
    x ∈ l := by
  unfold secondChoice at h
  split_ifs at h <;> exact List.get?_mem h

theorem fbMorning_mem (ps : List FbProduct) (l : List RoutineItem)
    (hok : fbMorning ps = .ok l) (it : RoutineItem) (h : it ∈ l) :
    ∃ fb ∈ ps, it.productId = fb.product_id := by
  unfold fbMorning at hok
  obtain ⟨m1, h1, hok⟩ := except_bind_ok _ _ _ hok
  obtain ⟨m2, h2, hok⟩ := except_bind_ok _ _ _ hok
  obtain ⟨m3, h3, hok⟩ := except_bind_ok _ _ _ hok
  have happ : m1 ++ m2 ++ m3 = l := by simpa using hok
  subst happ
  rcases List.mem_append.mp h with h | h
  · rcases List.mem_append.mp h with h | h
    · obtain ⟨c, hc, hid⟩ := optItemM_ok_mem _ _ _ _ h1 it h
      exact ⟨c, fbCleansers_sub ps c (List.mem_of_mem_head? (Option.mem_def.mpr hc)), hid⟩
    · obtain ⟨c, hc, hid⟩ := optItemM_ok_mem _ _ _ _ h2 it h
      exact ⟨c, fbSerums_sub ps c (List.mem_of_mem_head? (Option.mem_def.mpr hc)), hid⟩
  · obtain ⟨c, hc, hid⟩ := optItemM_ok_mem _ _ _ _ h3 it h
    exact ⟨c, fbMoisturizers_sub ps c (List.mem_of_mem_head? (Option.mem_def.mpr hc)), hid⟩

theorem fbEvening_mem (ps : List FbProduct) (l : List RoutineItem)
    (hok : fbEvening ps = .ok l) (it : RoutineItem) (h : it ∈ l) :
    ∃ fb ∈ ps, it.productId = fb.product_id := by
  unfold fbEvening at hok
  obtain ⟨e1, h1, hok⟩ := except_bind_ok _ _ _ hok
  obtain ⟨e2, h2, hok⟩ := except_bind_ok _ _ _ hok
  have happ : e1 ++ e2 = l := by simpa using hok
  subst happ
  rcases List.mem_append.mp h with h | h
  · obtain ⟨c, hc, hid⟩ := optItemM_ok_mem _ _ _ _ h1 it h
    exact ⟨c, fbCleansers_sub ps c (secondChoice_mem _ _ hc), hid⟩
  · obtain ⟨c, hc, hid⟩ := optItemM_ok_mem _ _ _ _ h2 it h
    exact ⟨c, fbSerums_sub ps c (secondChoice_mem _ _ hc), hid⟩

/-- Every item the fallback composer emits, when it does not throw, carries
the product_id of one of its input products. -/
theorem fb_item_source (ps : List FbProduct) (recs : Recs)
    (hok : createFallbackRecommendations ps = .ok recs) (it : RoutineItem)
    (h : it ∈ recItems recs) : ∃ fb ∈ ps, it.productId = fb.product_id := by
  unfold createFallbackRecommendations at hok
  obtain ⟨m, hm, hok⟩ := except_bind_ok _ _ _ hok
  obtain ⟨e, he, hok⟩ := except_bind_ok _ _ _ hok
  have hrec : ({ morningRoutine := some m, eveningRoutine := some e } : Recs) = recs := by
    simpa using hok
  subst hrec
  unfold recItems at h
  simp only [Option.getD_some] at h
  rcases List.mem_append.mp h with h | h
  · exact fbMorning_mem ps m hm it h
  · exact fbEvening_mem ps e he it h

/-- A valid id names one of the candidate products. -/
theorem availId_source (pbt : List (String × List Product)) (pid : String)
    (h : pid ∈ (availableProducts pbt).map (·.id)) :
    ∃ p ∈ pbt.flatMap Prod.snd, p.product_id = pid := by
  rw [List.mem_map] at h
  obtain ⟨a, ha, rfl⟩ := h
  unfold availableProducts at ha
  rw [List.mem_flatMap] at ha
  obtain ⟨tp, htp, ha⟩ := ha
  rw [List.mem_map] at ha
  obtain ⟨p, hp, rfl⟩ := ha
  exact ⟨p, List.mem_flatMap.mpr ⟨tp, htp, hp⟩, rfl⟩

/-- Items of an identifier-validated recommendation reference candidates. -/
theorem validated_item_source (pbt : List (String × List Product)) (R : Recs) (it : RoutineItem)
    (h : it ∈ recItems (validateRecs ((availableProducts pbt).map (·.id)) R)) :
    ∃ p ∈ pbt.flatMap Prod.snd, it.productId = some p.product_id := by
  unfold validateRecs recItems at h
  rcases List.mem_append.mp h with h | h <;>
  · obtain ⟨pid, hpid, hcont⟩ := validateRoutine_mem _ _ _ h
    have hmem : pid ∈ (availableProducts pbt).map (·.id) := by
      simpa [List.elem_iff] using hcont
    obtain ⟨p, hp, hid⟩ := availId_source pbt pid hmem
    exact ⟨p, hp, by rw [hpid, hid]⟩

/-- C1: every routine item of any Recommendation the selection step returns —
through the structured path, the free-text path, the inner parse fallback and
the outer call-failure fallback alike — carries the product_id of one of the
candidate products passed to the step; the generative output cannot
introduce an identifier outside that set (a run on which the fallback throws
returns no Recommendation at all). -/
theorem c1_identifier_integrity (productsByType : List (String × List Product))
    (outcome : ModelOutcome) (recs : Recs) (it : RoutineItem)
    (hsel : selectFinalProductsWithAI productsByType outcome = .ok recs)
    (h : it ∈ recItems recs) :
    ∃ p ∈ productsByType.flatMap Prod.snd, it.productId = some p.product_id := by
  cases outcome with
  | callFailed =>
    have hok : createFallbackRecommendations
        ((productsByType.flatMap Prod.snd).map catalogToFb) = .ok recs := hsel
    obtain ⟨fb, hfb, hid⟩ := fb_item_source _ recs hok it h
    rw [List.mem_map] at hfb
    obtain ⟨p, hp, rfl⟩ := hfb
    exact ⟨p, hp, by simpa [catalogToFb] using hid⟩
  | jsonParsed r =>
    have hr : validateRecs ((availableProducts productsByType).map (·.id)) r = recs :=
      Except.ok.inj hsel
    exact validated_item_source productsByType r it (hr ▸ h)
  | noJsonMatch text =>
    have hr : validateRecs ((availableProducts productsByType).map (·.id))
        (parseTextResponse text (availableProducts productsByType)) = recs :=
      Except.ok.inj hsel
    exact validated_item_source productsByType
      (parseTextResponse text (availableProducts productsByType)) it (hr ▸ h)
  | parseFailed =>
    cases hin : createFallbackRecommendations
        ((availableProducts productsByType).map availToFb) with
    | ok R =>
      have hr : validateRecs ((availableProducts productsByType).map (·.id)) R = recs := by
        have hthis := hsel
        simp only [selectFinalProductsWithAI] at hthis
        rw [hin] at hthis
        exact Except.ok.inj hthis
      exact validated_item_source productsByType R it (hr ▸ h)
    | error e =>
      have hok : createFallbackRecommendations
          ((productsByType.flatMap Prod.snd).map catalogToFb) = .ok recs := by
        have hthis := hsel
        simp only [selectFinalProductsWithAI] at hthis
        rw [hin] at hthis
        exact hthis
      obtain ⟨fb, hfb, hid⟩ := fb_item_source _ recs hok it h
      rw [List.mem_map] at hfb
      obtain ⟨p, hp, rfl⟩ := hfb
      exact ⟨p, hp, by simpa [catalogToFb] using hid⟩

/-- C1 witness: a structured model output selecting the real candidate is
kept by validation and indeed references the candidate set. -/
theorem c1_identifier_integrity_witness :
    ∃ p ∈ ([("cleanser", [fragranceCleanser])] : List (String × List Product)).flatMap Prod.snd,
      itemP1.productId = some p.product_id :=
  c1_identifier_integrity [("cleanser", [fragranceCleanser])]
    (.jsonParsed { morningRoutine := some [itemP1], eveningRoutine := none })
    { morningRoutine := some [itemP1], eveningRoutine := none } itemP1 rfl
    (List.mem_append_left _ (List.mem_singleton.mpr rfl))

end Pipeline
